import Mathlib

/-!
Verification of the Vane reverse proxy core (request pipeline subsystem).

The definitions below are a shallow embedding of the Rust sources:
  path_matcher.rs, routing.rs, proxy.rs, middleware.rs, ratelimit.rs,
  server/mod.rs, server/http_server.rs, error.rs, models.rs.
External collaborators (the governor and lazy_limit token-bucket crates, the
outbound hyper client, disk reads for status pages) are modelled as explicit
parameters or abstract state transformers; everything the repository itself
computes is translated directly.
-/

namespace Vane

/-! ## Path matcher (src/path_matcher.rs) -/

/-- Rust `str::split(sep)` over the characters of a string: the pieces between
occurrences of the separator, in order, empty pieces included. -/
def splitCharAux (sep : Char) : List Char → List (List Char)
  | [] => [[]]
  | x :: xs =>
    match splitCharAux sep xs with
    | [] => [[]]
    | hd :: tl => if x = sep then [] :: hd :: tl else (x :: hd) :: tl

/-- Rust `str::split(sep)` producing strings. -/
def splitChar (sep : Char) (s : String) : List String :=
  (splitCharAux sep s.toList).map String.mk

/-- Rust `str::trim`: drop leading and trailing whitespace. -/
def trimS (s : String) : String :=
  String.mk (((s.toList.dropWhile Char.isWhitespace).reverse.dropWhile
    Char.isWhitespace).reverse)

/-- Rust `str::to_uppercase` restricted to the ASCII letters that occur in
HTTP method names. -/
def toUpperS (s : String) : String :=
  String.mk (s.toList.map Char.toUpper)

/-- Rust `str::to_lowercase` restricted to ASCII. -/
def toLowerS (s : String) : String :=
  String.mk (s.toList.map Char.toLower)

/-- Splitting used by `get_match_score`: split on the slash character and drop
empty segments (`pattern.split('/').filter(|s| !s.is_empty())`). -/
def splitSegments (s : String) : List String :=
  (splitChar '/' s).filter (fun seg => seg ≠ "")

/-- `MatchScore` from src/path_matcher.rs: number of exact (non-wildcard)
segments, then total pattern segments.  The Rust `derive(PartialOrd, Ord)` is
lexicographic in field order; `scoreLt` below reproduces it. -/
structure MatchScore where
  exact_parts : Nat
  total_parts : Nat
deriving DecidableEq, Repr

/-- The derived lexicographic strict order on `MatchScore`
(`exact_parts` first, then `total_parts`). -/
def scoreLt (a b : MatchScore) : Bool :=
  decide (a.exact_parts < b.exact_parts) ||
    (a.exact_parts == b.exact_parts && decide (a.total_parts < b.total_parts))

/-- The `for (i, p_part) in pattern_parts.iter().enumerate()` loop of
`get_match_score`: wildcard segments are skipped, a mismatching exact segment
aborts with `None`, a matching exact segment increments `exact_parts`. -/
def scoreLoop (path_parts : List String) : List String → Nat → Nat → Option Nat
  | [], _, exact => some exact
  | p :: ps, i, exact =>
    if p = "*" then scoreLoop path_parts ps (i + 1) exact
    else if path_parts.get? i = some p then scoreLoop path_parts ps (i + 1) (exact + 1)
    else none

/-- `get_match_score` from src/path_matcher.rs (lines 19-44).  A textually
identical private copy lives in src/ratelimit.rs (lines 27-51); both are
embedded by this single definition. -/
def get_match_score (pattern path : String) : Option MatchScore :=
  if (splitSegments pattern).length > (splitSegments path).length then none
  else
    (scoreLoop (splitSegments path) (splitSegments pattern) 0 0).map
      (fun exact => { exact_parts := exact, total_parts := (splitSegments pattern).length })

/-- Specification-side Boolean: every pattern segment, matched at its own
index, is either the wildcard or equal to the path segment there. -/
def partsMatch (path_parts : List String) : List String → Nat → Bool
  | [], _ => true
  | p :: ps, i => (p == "*" || path_parts.get? i == some p) && partsMatch path_parts ps (i + 1)

/-- Number of non-wildcard segments of a pattern. -/
def exactCount (ps : List String) : Nat :=
  ps.countP (fun p => p != "*")

/-! ## Data model (src/models.rs, src/config.rs) -/

/-- `HttpOptions` from src/models.rs: policy for plain-HTTP arrivals. -/
inductive HttpOptions where
  | Upgrade
  | Reject
  | Allow
deriving DecidableEq, Repr

/-- `TlsConfig` from src/models.rs. -/
structure TlsConfig where
  cert : String
  key : String
deriving DecidableEq, Repr

/-- `RateLimitRule` from src/models.rs (`period` string such as 1s, 10m;
`requests : u32`). -/
structure RateLimitRule where
  period : String
  requests : Nat
deriving DecidableEq, Repr

/-- `RateLimitRouteRule` from src/models.rs. -/
structure RateLimitRouteRule where
  path : String
  rule : RateLimitRule
deriving DecidableEq, Repr

/-- `RateLimitConfig` from src/models.rs. -/
structure RateLimitConfig where
  default : Option RateLimitRule
  routes : List RateLimitRouteRule
  overrides : List RateLimitRouteRule
deriving DecidableEq, Repr

/-- `CorsConfig` from src/models.rs: map from origin to a comma-separated
methods string.  The Rust `HashMap` is modelled as an association list with
unique keys; lookups are exact, as in `HashMap::get`. -/
structure CorsConfig where
  origins : List (String × String)
deriving DecidableEq, Repr

/-- `MethodsConfig` from src/models.rs. -/
structure MethodsConfig where
  allow : String
deriving DecidableEq, Repr

/-- `Route` from src/models.rs. -/
structure Route where
  path : String
  targets : List String
  websocket : Bool
deriving DecidableEq, Repr

/-- `DomainConfig` from src/models.rs. -/
structure DomainConfig where
  https : Bool
  http_options : HttpOptions
  hsts : Bool
  http3 : Bool
  tls : Option TlsConfig
  routes : List Route
  rate_limit : RateLimitConfig
  cors : Option CorsConfig
  methods : Option MethodsConfig
deriving DecidableEq, Repr

/-- `AppConfig` from src/config.rs.  The `HashMap<String, DomainConfig>` is an
association list with unique keys; `domains.get(host)` is `List.lookup`. -/
structure AppConfig where
  http_port : Nat
  https_port : Nat
  domains : List (String × DomainConfig)
deriving DecidableEq, Repr

/-- `VaneError`.  src/error.rs declares `HostNotFound`, `NoRouteFound` and
`BadGateway` (the latter carrying an `anyhow::Error`, modelled as its message
string); src/routing.rs additionally returns `VaneError::AmbiguousRoute`. -/
inductive VaneError where
  | HostNotFound
  | NoRouteFound
  | AmbiguousRoute
  | BadGateway (cause : String)
deriving DecidableEq, Repr

/-! ## Router (src/routing.rs) -/

/-- The route-scanning loop of `find_best_route` (src/routing.rs lines 36-61):
state is the current best `(score, route)` and the `ambiguous` flag.  A
strictly higher score replaces the best and clears the flag; an equal score
sets the flag; a lower score and a non-matching route leave the state alone. -/
def routeFold (path : String) :
    List Route → Option (MatchScore × Route) → Bool → Option (MatchScore × Route) × Bool
  | [], best, amb => (best, amb)
  | r :: rs, best, amb =>
    match get_match_score r.path path with
    | none => routeFold path rs best amb
    | some current_score =>
      match best with
      | none => routeFold path rs (some (current_score, r)) amb
      | some (best_score, best_route) =>
        if scoreLt best_score current_score then
          routeFold path rs (some (current_score, r)) false
        else if current_score == best_score then
          routeFold path rs (some (best_score, best_route)) true
        else
          routeFold path rs (some (best_score, best_route)) amb

/-- `find_best_route` from src/routing.rs (lines 31-70): run the scan, fail
with `AmbiguousRoute` if the flag is set, otherwise return a clone of the best
route's target list (or `none` when nothing matched). -/
def find_best_route (path : String) (domain_config : DomainConfig) :
    Except VaneError (Option (List String)) :=
  match routeFold path domain_config.routes none false with
  | (_, true) => .error .AmbiguousRoute
  | (best, false) => .ok (best.map (fun br => br.2.targets))

/-- `find_target_urls` from src/routing.rs (lines 15-28): exact host lookup,
`HostNotFound` when absent, then `find_best_route`. -/
def find_target_urls (host path : String) (config : AppConfig) :
    Except VaneError (Option (List String)) :=
  match config.domains.lookup host with
  | none => .error .HostNotFound
  | some domain_config => find_best_route path domain_config

/-- The scored matches of a route list against a path, in route order. -/
def matchesOf (path : String) (routes : List Route) : List (MatchScore × Route) :=
  routes.filterMap (fun r => (get_match_score r.path path).map (fun s => (s, r)))

/-- Specification-side running maximum of match scores. -/
def maxWith (b : MatchScore) : List (MatchScore × Route) → MatchScore
  | [] => b
  | p :: ms => maxWith (if scoreLt b p.1 then p.1 else b) ms

/-- Specification-side scan mirroring `routeFold` but counting how many routes
achieved the current best score (the `ambiguous` flag holds exactly when this
count is at least two). -/
def scanSpec (path : String) :
    List Route → MatchScore → Route → Nat → MatchScore × Route × Nat
  | [], b, rb, c => (b, rb, c)
  | r :: rs, b, rb, c =>
    match get_match_score r.path path with
    | none => scanSpec path rs b rb c
    | some s =>
      if scoreLt b s then scanSpec path rs s r 1
      else if s == b then scanSpec path rs b rb (c + 1)
      else scanSpec path rs b rb c

/-- Specification-side scan from the empty starting state: skip routes until
the first match, then run `scanSpec`. -/
def scanFromNone (path : String) : List Route → Option (MatchScore × Route × Nat)
  | [] => none
  | r :: rs =>
    match get_match_score r.path path with
    | none => scanFromNone path rs
    | some s => some (scanSpec path rs s r 1)

/-! ## Responses and the error surface (src/error.rs) -/

/-- An HTTP response as the pipeline sees it: status code, headers (names in
their canonical lowercase form, as in `http::HeaderMap`), and body. -/
structure Response where
  status : Nat
  headers : List (String × String)
  body : String
deriving DecidableEq, Repr

/-- `serve_status_page` from src/error.rs (lines 22-52): it attempts to read
`status/<code>.html` from the config directory at request time and falls back
to the plain-text default message on any read error.  The disk read is an
external effect; the model keeps the fallback text as the body. -/
def serve_status_page (status : Nat) (default_message : String) : Response :=
  { status := status, headers := [], body := default_message }

/-- `IntoResponse for VaneError` (src/error.rs lines 64-83).  src/error.rs has
no arm for `AmbiguousRoute`; its 500 mapping is the documented error surface
for tied best scores. -/
def vaneErrorResponse : VaneError → Response
  | .HostNotFound => serve_status_page 400 ("Host not configured or header missing")
  | .NoRouteFound => serve_status_page 404 ("No route found for this path")
  | .AmbiguousRoute => serve_status_page 500 ("Ambiguous route")
  | .BadGateway _ => serve_status_page 502 ("Upstream server error")

/-! ## Proxy forwarder (src/proxy.rs) -/

/-- `http::StatusCode::is_server_error`: status in the range 500..=599. -/
def is_server_error (status : Nat) : Bool :=
  decide (500 ≤ status) && decide (status < 600)

/-- `IP_HEADERS_TO_CLEAN` from src/proxy.rs (lines 16-22). -/
def ipHeadersToClean : List String :=
  ["x-real-ip", "x-forwarded-for", "x-forwarded", "forwarded-for", "forwarded"]

/-- Header cleaning in the failover loop (src/proxy.rs lines 103-106):
`HeaderMap::remove` for each name in `IP_HEADERS_TO_CLEAN` (header names are
kept lowercase, matching `http::HeaderName`). -/
def cleanIpHeaders (headers : List (String × String)) : List (String × String) :=
  headers.filter (fun h => !(ipHeadersToClean.contains h.1))

/-- The `X-Forwarded-For` stamp (src/proxy.rs lines 107-112): inserted only
when the client address extension was present. -/
def setForwardedFor (headers : List (String × String)) (clientIp : Option String) :
    List (String × String) :=
  match clientIp with
  | none => headers
  | some ip => ("x-forwarded-for", ip) :: headers

/-- `target_url.strip_suffix('/').unwrap_or(&target_url)` (src/proxy.rs
line 77): drop one trailing slash if present. -/
def stripTrailingSlash (s : String) : String :=
  match s.toList.getLast? with
  | some c => if c = '/' then String.mk s.toList.dropLast else s
  | none => s

/-- The full target URL of one attempt (src/proxy.rs lines 75-79):
stripped target followed by the original path-and-query. -/
def buildTargetUrl (target pq : String) : String :=
  stripTrailingSlash target ++ pq

/-- One outbound attempt request (src/proxy.rs lines 70-118): the parsed URI,
the cleaned and re-stamped headers, the replayed body bytes, and the version
forced to HTTP/1.1. -/
structure OutboundReq where
  url : String
  headers : List (String × String)
  body : String
  httpVersion : Nat × Nat
deriving DecidableEq, Repr

/-- The attempt request built for one target. -/
def attemptReq (headers : List (String × String)) (clientIp : Option String)
    (pq body target : String) : OutboundReq :=
  { url := buildTargetUrl target pq,
    headers := setForwardedFor (cleanIpHeaders headers) clientIp,
    body := body,
    httpVersion := (1, 1) }

/-- Outcome of `state.http_client.request` for one attempt: a transport error
or a response. -/
inductive SendResult where
  | transportError (msg : String)
  | response (resp : Response)

/-- The failover loop of `proxy_handler` (src/proxy.rs lines 66-174).
`parseUri` models `full_target_url.parse()` (a pure function of the URL
string); `send` models the outbound client.  The second component of the
result is the list of attempt requests actually sent, in order.  A parse
failure records a cause and skips the target without contacting it; a
transport error or a response with `is_server_error` status records a cause
and moves on; any other response is returned as is.  When the loop exhausts
the targets it returns `BadGateway` with the last recorded cause (or the
stock message when no cause was recorded). -/
def proxyLoop (parseUri : String → Bool) (send : OutboundReq → SendResult)
    (headers : List (String × String)) (clientIp : Option String) (pq body : String) :
    List String → Option String → Except VaneError Response × List OutboundReq
  | [], last_error =>
    (.error (.BadGateway
      (last_error.getD ("No available backend targets could handle the request."))), [])
  | target :: rest, _last_error =>
    let url := buildTargetUrl target pq
    if parseUri url then
      let attempt := attemptReq headers clientIp pq body target
      match send attempt with
      | .response r =>
        if is_server_error r.status then
          let next := proxyLoop parseUri send headers clientIp pq body rest
            (some ("Target " ++ url ++ " failed with status " ++ toString r.status))
          (next.1, attempt :: next.2)
        else (.ok r, [attempt])
      | .transportError e =>
        let next := proxyLoop parseUri send headers clientIp pq body rest (some e)
        (next.1, attempt :: next.2)
    else
      let next := proxyLoop parseUri send headers clientIp pq body rest
        (some ("Invalid constructed target URL " ++ url))
      (next.1, next.2)

/-- An attempt at `target` fails: the URL does not parse, or the send is a
transport error, or the response status is a server error (500..=599). -/
def attemptFails (parseUri : String → Bool) (send : OutboundReq → SendResult)
    (headers : List (String × String)) (clientIp : Option String)
    (pq body target : String) : Prop :=
  parseUri (buildTargetUrl target pq) = false ∨
  (∃ e, send (attemptReq headers clientIp pq body target) = .transportError e) ∨
  (∃ r, send (attemptReq headers clientIp pq body target) = .response r ∧
        is_server_error r.status = true)

/-- The cause string recorded for a failing attempt at `target` (meaningful
only when the attempt fails). -/
def attemptCause (parseUri : String → Bool) (send : OutboundReq → SendResult)
    (headers : List (String × String)) (clientIp : Option String)
    (pq body target : String) : String :=
  let url := buildTargetUrl target pq
  if parseUri url then
    match send (attemptReq headers clientIp pq body target) with
    | .transportError e => e
    | .response r => "Target " ++ url ++ " failed with status " ++ toString r.status
  else "Invalid constructed target URL " ++ url

/-! ## Limiter construction (src/server/mod.rs) -/

/-- Digits of a decimal literal folded into a number. -/
def digitsToNat (cs : List Char) : Nat :=
  cs.foldl (fun acc c => acc * 10 + (c.toNat - 48)) 0

/-- `str::parse::<u64>` on an unsigned decimal string: nonempty, all digits,
and within the u64 range. -/
def parseU64 (cs : List Char) : Option Nat :=
  if cs = [] then none
  else if cs.all Char.isDigit = true ∧ digitsToNat cs < 2 ^ 64 then some (digitsToNat cs)
  else none

/-- `parse_std_duration` from src/server/mod.rs (lines 24-37): lowercase the
string, trim trailing non-digits to get the value, trim leading digits to get
the unit, and accept the units s, m, h.  The result is the duration in
seconds. -/
def parse_std_duration (period : String) : Except String Nat :=
  let p := toLowerS period
  let value_chars := (p.toList.reverse.dropWhile (fun c => !c.isDigit)).reverse
  let unit := String.mk (p.toList.dropWhile (fun c => c.isDigit))
  match parseU64 value_chars with
  | none => .error ("Invalid duration value")
  | some value =>
    if unit = "s" then .ok value
    else if unit = "m" then .ok (value * 60)
    else if unit = "h" then .ok (value * 60 * 60)
    else .error ("Unsupported duration unit: " ++ unit)

/-- A governor `Quota`: replenish period in seconds and burst capacity. -/
structure Quota where
  period_secs : Nat
  burst : Nat
deriving DecidableEq, Repr

/-- `Quota::per_second(NonZeroU32::new(u32::MAX))`, the quota used by
`build_global_limiter` when no domain contributes a default rule
(src/server/mod.rs line 42: a very high burst to represent infinite). -/
def quotaUnlimited : Quota :=
  { period_secs := 1, burst := 4294967295 }

/-- `build_global_limiter` from src/server/mod.rs (lines 40-74): scan the
domains in iteration order; the first domain whose `rate_limit.default` rule
has nonzero requests and a nonzero, parseable period supplies the quota of the
single process-wide configurable limiter; a malformed period string aborts
startup; if no rule qualifies the quota is unlimited. -/
def build_global_limiter : List (String × DomainConfig) → Except String Quota
  | [] => .ok quotaUnlimited
  | (_, domain_config) :: rest =>
    match domain_config.rate_limit.default with
    | none => build_global_limiter rest
    | some rule =>
      match parse_std_duration rule.period with
      | .error e => .error e
      | .ok period =>
        if rule.requests ≠ 0 ∧ period ≠ 0 then
          .ok { period_secs := period, burst := rule.requests }
        else build_global_limiter rest

/-! ## Best-match lookup for keyed limiters (src/ratelimit.rs) -/

/-- The scan inside `find_best_match` (src/ratelimit.rs lines 55-102) over the
map entries in iteration order, with the limiter of each entry identified by
its pattern key: a strictly higher score replaces the best; ties keep the
earlier entry. -/
def fbmLoop (full_path : String) :
    List String → Option (String × MatchScore) → Option (String × MatchScore)
  | [], best => best
  | pattern :: rest, best =>
    match get_match_score pattern full_path with
    | none => fbmLoop full_path rest best
    | some score =>
      match best with
      | none => fbmLoop full_path rest (some (pattern, score))
      | some (bpat, bscore) =>
        if scoreLt bscore score then fbmLoop full_path rest (some (pattern, score))
        else fbmLoop full_path rest (some (bpat, bscore))

/-- `find_best_match` from src/ratelimit.rs: the pattern key of the most
specific matching limiter, if any.  The `HashMap` is modelled by its list of
keys in iteration order. -/
def find_best_match (patterns : List String) (full_path : String) : Option String :=
  (fbmLoop full_path patterns none).map Prod.fst

/-! ## Requests, pipeline state and the middleware chain (src/middleware.rs) -/

/-- A decoded request as the middleware chain sees it.  `host` is the value
produced by the `Host` extractor; `connectInfo` is the client socket address
from `ConnectInfo` (modelled as its IP string); `extAddr` is the raw
`SocketAddr` request extension, absent until `rate_limit_handler` inserts it;
header names are canonical lowercase. -/
structure Request where
  method : String
  host : String
  path : String
  pathAndQuery : String
  headers : List (String × String)
  body : String
  connectInfo : String
  extAddr : Option String
deriving DecidableEq, Repr

/-- The mutable token-bucket state of all limiters, per key.  `shield` is the
lazy_limit global bucket keyed by client IP string; `overrideSt` and `routeSt`
are the governor buckets of `override_limiters` and `route_limiters`, keyed by
pattern and client IP; `defaultSt` is the bucket of the single
`configurable_limiter`, keyed by client IP.  Bucket contents are opaque
(`Nat`); their evolution is given by a `LimiterSemantics`. -/
structure RLState where
  shield : String → Nat
  overrideSt : String → String → Nat
  routeSt : String → String → Nat
  defaultSt : String → Nat

/-- The check functions of the external token-bucket crates (lazy_limit for
the shield, governor `check_key` for the rest): each consumes a bucket state
and returns pass/fail with the successor state. -/
structure LimiterSemantics where
  shieldCheck : Nat → Bool × Nat
  overrideCheck : String → Nat → Bool × Nat
  routeCheck : String → Nat → Bool × Nat
  defaultCheck : Nat → Bool × Nat

/-- Which limiter a `check_key` (or shield `limit!`) call consulted; the
middleware records one entry per call, mirroring its debug log lines. -/
inductive ConsultedLimiter where
  | shield
  | override (pattern : String)
  | route (pattern : String)
  | defaultLimiter
deriving DecidableEq, Repr

/-- State threaded through the pipeline: the limiter buckets and the trace of
limiter consultations. -/
structure PipeState where
  rl : RLState
  consulted : List ConsultedLimiter

/-- A service in the onion model: request plus pipeline state to response plus
pipeline state. -/
def Handler := Request → PipeState → Response × PipeState

/-- Valid bytes of an `http::Method`: the RFC 7230 token characters.
`Method::from_str` accepts any nonempty string of these (standard methods and
extension methods alike) and rejects everything else.  Character codes 39 and
96 are the apostrophe and the backquote. -/
def isMethodChar (c : Char) : Bool :=
  c.isAlpha || c.isDigit || c = '!' || c = '#' || c = '$' || c = '%' || c = '&' ||
  c.toNat = 39 || c = '*' || c = '+' || c = '-' || c = '.' || c = '^' || c = '_' ||
  c.toNat = 96 || c = '|' || c = '~'

/-- `http::Method::from_str`, with a `Method` modelled by its name string:
succeeds exactly on nonempty token strings. -/
def methodFromStr (s : String) : Option String :=
  if s.toList ≠ [] ∧ s.toList.all isMethodChar = true then some s else none

/-- `method_filter_handler` from src/middleware.rs (lines 48-86): when the
domain configures `methods.allow` and its trimmed value is not the wildcard,
split it on commas, trim and uppercase each token, keep the tokens that parse
as HTTP methods, and reject a request whose method is not among them with 405
and a status page. -/
def method_filter_handler (config : AppConfig) (next : Handler) : Handler := fun req ps =>
  match config.domains.lookup req.host with
  | none => next req ps
  | some domain_config =>
    match domain_config.methods with
    | none => next req ps
    | some methods_config =>
      let allowed_str := trimS methods_config.allow
      if allowed_str ≠ "*" then
        let allowed_methods :=
          (splitChar ',' allowed_str).filterMap (fun s => methodFromStr (toUpperS (trimS s)))
        if allowed_methods.contains req.method then next req ps
        else (serve_status_page 405 ("Method Not Allowed"), ps)
      else next req ps

/-- `str::eq_ignore_ascii_case`. -/
def eqIgnoreAsciiCase (a b : String) : Bool :=
  toLowerS a == toLowerS b

/-- The origin lookup of `cors_handler` (src/middleware.rs lines 120-123):
the exact origin key, falling back to the wildcard key. -/
def corsLookup (cors_config : CorsConfig) (origin : String) : Option String :=
  (cors_config.origins.lookup origin).orElse (fun _ => cors_config.origins.lookup ("*"))

/-- The preflight method test of `cors_handler` (src/middleware.rs lines
140-145): the trimmed methods value is the wildcard or empty, or some
comma-separated token equals the requested method up to ASCII case. -/
def corsMethodAllowed (methods_str req_method_val : String) : Bool :=
  trimS methods_str == "*" || trimS methods_str == "" ||
    (splitChar ',' methods_str).any (fun s => eqIgnoreAsciiCase (trimS s) req_method_val)

/-- `HeaderMap::insert` on a response: replace any existing value under the
name, the pair itself kept at the end. -/
def headerInsert (headers : List (String × String)) (name value : String) :
    List (String × String) :=
  headers.filter (fun h => h.1 ≠ name) ++ [(name, value)]

/-- `cors_handler` from src/middleware.rs (lines 89-193).  Preflight requests
(OPTIONS with `Access-Control-Request-Method`) are answered directly with 200:
with the allow headers and the Vary header when origin and method pass, empty
otherwise, and `next` is never invoked.  Non-preflight requests run the inner
pipeline and, when the origin was on the list, get
`Access-Control-Allow-Origin` inserted and `Vary: Origin` appended. -/
def cors_handler (config : AppConfig) (next : Handler) : Handler := fun req ps =>
  match (config.domains.lookup req.host).bind (fun d => d.cors) with
  | none => next req ps
  | some cors_config =>
    match req.headers.lookup ("origin") with
    | none => next req ps
    | some origin =>
      let allowed_methods_str := corsLookup cors_config origin
      let is_preflight :=
        req.method == "OPTIONS" &&
          (req.headers.lookup ("access-control-request-method")).isSome
      if is_preflight then
        let resp : Response := { status := 200, headers := [], body := "" }
        match allowed_methods_str with
        | some methods_str =>
          match req.headers.lookup ("access-control-request-method") with
          | some req_method_val =>
            if corsMethodAllowed methods_str req_method_val then
              ({ resp with headers :=
                  [("access-control-allow-origin", origin),
                   ("access-control-allow-headers", "*"),
                   ("access-control-allow-methods",
                     if methods_str == "" then "*" else methods_str),
                   ("vary",
                     "Origin, Access-Control-Request-Method, Access-Control-Request-Headers")] },
               ps)
            else (resp, ps)
          | none => (resp, ps)
        | none => (resp, ps)
      else
        let out := next req ps
        match allowed_methods_str with
        | some _ =>
          ({ out.1 with headers :=
              headerInsert out.1.headers ("access-control-allow-origin") origin ++
                [("vary", "Origin")] }, out.2)
        | none => out

/-- The unconditional default-limiter check at the end of the configured-host
branch of `rate_limit_handler` (src/middleware.rs lines 290-307): check the
single `configurable_limiter` keyed by client IP, 429 on failure. -/
def rate_limit_default_step (sem : LimiterSemantics) (next : Handler) : Handler :=
  fun req ps =>
  let ip := req.connectInfo
  let res := sem.defaultCheck (ps.rl.defaultSt ip)
  let ps2 : PipeState :=
    { rl := { ps.rl with defaultSt := Function.update ps.rl.defaultSt ip res.2 },
      consulted := ps.consulted ++ [.defaultLimiter] }
  if !res.1 then (serve_status_page 429 ("Too Many Requests"), ps2)
  else next req ps2

/-- `rate_limit_handler` from src/middleware.rs (lines 196-326): shield check
first (429 on failure), then the client address is inserted into the request
extensions; for hosts present in the domain map the best-matching override
limiter is checked and, when it passes, the request is passed through at once;
otherwise the best-matching route limiter (if any) is checked, and then the
default limiter, 429 on any failure.  Hosts absent from the domain map skip
all configurable limits. -/
def rate_limit_handler (sem : LimiterSemantics) (config : AppConfig)
    (route_keys override_keys : List String) (next : Handler) : Handler := fun req ps =>
  let ip := req.connectInfo
  let shieldRes := sem.shieldCheck (ps.rl.shield ip)
  let ps1 : PipeState :=
    { rl := { ps.rl with shield := Function.update ps.rl.shield ip shieldRes.2 },
      consulted := ps.consulted ++ [.shield] }
  if !shieldRes.1 then (serve_status_page 429 ("Too Many Requests"), ps1)
  else
    let req1 := { req with extAddr := some ip }
    match config.domains.lookup req1.host with
    | none => next req1 ps1
    | some _ =>
      let full_path_key := req1.host ++ req1.path
      match find_best_match override_keys full_path_key with
      | some pattern =>
        let res := sem.overrideCheck pattern (ps1.rl.overrideSt pattern ip)
        let newOver :=
          Function.update ps1.rl.overrideSt pattern
            (Function.update (ps1.rl.overrideSt pattern) ip res.2)
        let ps2 : PipeState :=
          { rl := { ps1.rl with overrideSt := newOver },
            consulted := ps1.consulted ++ [.override pattern] }
        if !res.1 then (serve_status_page 429 ("Too Many Requests"), ps2)
        else next req1 ps2
      | none =>
        match find_best_match route_keys full_path_key with
        | some pattern =>
          let res := sem.routeCheck pattern (ps1.rl.routeSt pattern ip)
          let newRoute :=
            Function.update ps1.rl.routeSt pattern
              (Function.update (ps1.rl.routeSt pattern) ip res.2)
          let ps2 : PipeState :=
            { rl := { ps1.rl with routeSt := newRoute },
              consulted := ps1.consulted ++ [.route pattern] }
          if !res.1 then (serve_status_page 429 ("Too Many Requests"), ps2)
          else rate_limit_default_step sem next req1 ps2
        | none => rate_limit_default_step sem next req1 ps1

/-- `http_request_handler` from src/middleware.rs (lines 348-380): the
HTTP-mode policy of the plain-HTTP listener. -/
def http_request_handler (config : AppConfig) (next : Handler) : Handler := fun req ps =>
  match config.domains.lookup req.host with
  | none => next req ps
  | some domain_config =>
    match domain_config.http_options with
    | .Allow => next req ps
    | .Reject =>
      (serve_status_page 426 ("HTTP is not supported for this domain. Please use HTTPS."), ps)
    | .Upgrade =>
      ({ status := 301,
         headers := [("location", "https://" ++ req.host ++ req.pathAndQuery)],
         body := "" }, ps)

/-- `proxy_handler` from src/proxy.rs (lines 25-174) as the innermost service:
route the host and path, then run the failover loop; router and loop errors
are rendered through the error surface.  Body buffering is modelled by the
request body string replayed on each attempt. -/
def proxy_handler (config : AppConfig) (parseUri : String → Bool)
    (send : OutboundReq → SendResult) : Handler := fun req ps =>
  match find_target_urls req.host req.path config with
  | .error e => (vaneErrorResponse e, ps)
  | .ok none => (vaneErrorResponse .NoRouteFound, ps)
  | .ok (some target_urls) =>
    match (proxyLoop parseUri send req.headers req.extAddr req.pathAndQuery req.body
        target_urls none).1 with
    | .ok r => (r, ps)
    | .error e => (vaneErrorResponse e, ps)

/-- The plain-HTTP listener pipeline (src/server/http_server.rs lines 17-37).
The axum `Router::layer` call wraps everything added before it, so of the
layers added in source order method_filter, cors, rate_limit, http_request,
the LAST added is the OUTERMOST: a request traverses http_request_handler,
then rate_limit_handler, then cors_handler, then method_filter_handler, and
finally the proxy fallback. -/
def http_pipeline (sem : LimiterSemantics) (config : AppConfig)
    (route_keys override_keys : List String) (parseUri : String → Bool)
    (send : OutboundReq → SendResult) : Handler :=
  http_request_handler config
    (rate_limit_handler sem config route_keys override_keys
      (cors_handler config
        (method_filter_handler config
          (proxy_handler config parseUri send))))

/-! ## Concrete instances used by the claim witnesses -/

/-- A domain with an exact route and a wildcard route (the end-to-end
scenario 2 of the specification). -/
def dcC3 : DomainConfig :=
  { https := false, http_options := .Allow, hsts := false, http3 := false, tls := none,
    routes := [{ path := "/api/users", targets := ["b1"], websocket := false },
               { path := "/api/*", targets := ["b2"], websocket := false }],
    rate_limit := { default := none, routes := [], overrides := [] },
    cors := none, methods := none }

def cfgC3 : AppConfig :=
  { http_port := 80, https_port := 443, domains := [("a.test", dcC3)] }

/-- A domain with two tied patterns and one strictly more specific route. -/
def dcC4 : DomainConfig :=
  { https := false, http_options := .Allow, hsts := false, http3 := false, tls := none,
    routes := [{ path := "/a/*", targets := ["t1"], websocket := false },
               { path := "/*/b", targets := ["t2"], websocket := false },
               { path := "/a/b", targets := ["t3"], websocket := false }],
    rate_limit := { default := none, routes := [], overrides := [] },
    cors := none, methods := none }

/-- A domain whose two distinct patterns tie at the best score. -/
def dcC4W : DomainConfig :=
  { https := false, http_options := .Allow, hsts := false, http3 := false, tls := none,
    routes := [{ path := "/a/*", targets := ["t1"], websocket := false },
               { path := "/*/b", targets := ["t2"], websocket := false }],
    rate_limit := { default := none, routes := [], overrides := [] },
    cors := none, methods := none }

/-- A backend world for the failover witness: target a answers 500, target b
answers 200, anything else answers 204. -/
def sendC1 : OutboundReq → SendResult := fun req =>
  if req.url = "http://a/x" then .response { status := 500, headers := [], body := "a-body" }
  else if req.url = "http://b/x" then .response { status := 200, headers := [], body := "b-body" }
  else .response { status := 204, headers := [], body := "c-body" }

/-- Fresh limiter buckets. -/
def rlInit : RLState :=
  { shield := fun _ => 0, overrideSt := fun _ _ => 0, routeSt := fun _ _ => 0,
    defaultSt := fun _ => 0 }

/-- Fresh pipeline state. -/
def psInit : PipeState := { rl := rlInit, consulted := [] }

/-- Limiter semantics in which every check passes and bumps the bucket. -/
def semW : LimiterSemantics :=
  { shieldCheck := fun st => (true, st + 1),
    overrideCheck := fun _ st => (true, st + 1),
    routeCheck := fun _ st => (true, st + 1),
    defaultCheck := fun st => (true, st + 1) }

/-- Limiter semantics in which the shield passes and the default check
fails. -/
def semC7 : LimiterSemantics :=
  { shieldCheck := fun st => (true, st + 1),
    overrideCheck := fun _ st => (true, st + 1),
    routeCheck := fun _ st => (true, st + 1),
    defaultCheck := fun st => (false, st) }

/-- A domain with everything at its defaults. -/
def dcPlain : DomainConfig :=
  { https := false, http_options := .Allow, hsts := false, http3 := false, tls := none,
    routes := [], rate_limit := { default := none, routes := [], overrides := [] },
    cors := none, methods := none }

/-- An inner service answering 200. -/
def nextOk : Handler := fun _ ps => ({ status := 200, headers := [], body := "inner" }, ps)

/-- An inner service that reveals the request extension it received. -/
def nextProbe : Handler := fun r ps =>
  ({ status := 200, headers := [], body := "addr:" ++ (r.extAddr.getD ("none")) }, ps)

def cfgC6 : AppConfig :=
  { http_port := 80, https_port := 443, domains := [("a.test", dcPlain)] }

def reqC6 : Request :=
  { method := "GET", host := "a.test", path := "/api", pathAndQuery := "/api",
    headers := [], body := "", connectInfo := "1.2.3.4", extAddr := none }

/-- The host of this request is configured in no domain map entry. -/
def reqC9 : Request :=
  { method := "GET", host := "nosuch.test", path := "/x", pathAndQuery := "/x",
    headers := [], body := "", connectInfo := "1.2.3.4", extAddr := none }

def cfgEmpty : AppConfig := { http_port := 80, https_port := 443, domains := [] }

/-- A domain carrying a default rate-limit rule of one request per second. -/
def dcC7A : DomainConfig :=
  { dcPlain with rate_limit :=
      { default := some { period := "1s", requests := 1 }, routes := [], overrides := [] } }

/-- A domain carrying no default rate-limit rule. -/
def dcC7B : DomainConfig := dcPlain

def cfgC7 : AppConfig :=
  { http_port := 80, https_port := 443,
    domains := [("a.test", dcC7A), ("b.test", dcC7B)] }

def reqC7 : Request :=
  { method := "GET", host := "b.test", path := "/x", pathAndQuery := "/x",
    headers := [], body := "", connectInfo := "1.2.3.4", extAddr := none }

def ccC8 : CorsConfig := { origins := [("https://app.example", "GET")] }

def dcC8 : DomainConfig := { dcPlain with cors := some ccC8 }

def cfgC8 : AppConfig :=
  { http_port := 80, https_port := 443, domains := [("a.test", dcC8)] }

def reqC8 : Request :=
  { method := "OPTIONS", host := "a.test", path := "/x", pathAndQuery := "/x",
    headers := [("origin", "https://app.example"),
                ("access-control-request-method", "GET")],
    body := "", connectInfo := "1.2.3.4", extAddr := none }

/-- A domain whose allow string holds no valid method token. -/
def dcC10 : DomainConfig := { dcPlain with methods := some { allow := "," } }

def cfgC10 : AppConfig :=
  { http_port := 80, https_port := 443, domains := [("a.test", dcC10)] }

def reqC10 : Request :=
  { method := "GET", host := "a.test", path := "/x", pathAndQuery := "/x",
    headers := [], body := "", connectInfo := "1.2.3.4", extAddr := none }

/-- A domain on which the method filter allows only GET and CORS allows only
GET for the one configured origin. -/
def dcC5 : DomainConfig :=
  { dcPlain with cors := some { origins := [("https://app.example", "GET")] },
                 methods := some { allow := "GET" } }

def cfgC5 : AppConfig :=
  { http_port := 80, https_port := 443, domains := [("a.test", dcC5)] }

/-- A preflight that the method filter would reject (OPTIONS is not allowed)
and that CORS denies (DELETE is not among the allowed methods). -/
def reqC5 : Request :=
  { method := "OPTIONS", host := "a.test", path := "/x", pathAndQuery := "/x",
    headers := [("origin", "https://app.example"),
                ("access-control-request-method", "DELETE")],
    body := "", connectInfo := "1.2.3.4", extAddr := none }

def sendC5 : OutboundReq → SendResult :=
  fun _ => .response { status := 200, headers := [], body := "backend" }

/-! ## Lemmas about the path matcher -/

/-- `scoreLoop` characterised: it succeeds exactly when every pattern segment
is compatible with the path segment at its index, and then returns the
accumulator plus the number of non-wildcard segments. -/
theorem scoreLoop_eq (qq : List String) :
    ∀ (ps : List String) (i exact : Nat),
      scoreLoop qq ps i exact =
        if partsMatch qq ps i then some (exact + exactCount ps) else none
  | [], i, exact => by simp [scoreLoop, partsMatch, exactCount]
  | p :: ps, i, exact => by
    simp only [scoreLoop]
    by_cases hp : p = "*"
    · subst hp
      rw [if_pos rfl, scoreLoop_eq qq ps (i + 1) exact]
      have hw : partsMatch qq ("*" :: ps) i = partsMatch qq ps (i + 1) := by
        simp [partsMatch]
      have hc : exactCount ("*" :: ps) = exactCount ps := by
        simp [exactCount, List.countP_cons]
      rw [hw, hc]
    · rw [if_neg hp]
      by_cases hq : qq.get? i = some p
      · have hq2 : qq[i]? = some p := by rw [← List.get?_eq_getElem?]; exact hq
        rw [if_pos hq, scoreLoop_eq qq ps (i + 1) (exact + 1)]
        have hw : partsMatch qq (p :: ps) i = partsMatch qq ps (i + 1) := by
          simp [partsMatch, hq2]
        have hc : exactCount (p :: ps) = exactCount ps + 1 := by
          simp [exactCount, List.countP_cons, hp]
        rw [hw, hc]
        cases hm : partsMatch qq ps (i + 1) <;> simp [hm] <;> try omega
      · have hq2 : ¬qq[i]? = some p := by rw [← List.get?_eq_getElem?]; exact hq
        rw [if_neg hq]
        have hw : partsMatch qq (p :: ps) i = false := by
          simp [partsMatch, hp, hq2]
        rw [hw]
        simp

/-- `partsMatch` holds exactly when every pattern segment, at its own index,
is the wildcard or equals the path segment there. -/
theorem partsMatch_true_iff (qq : List String) :
    ∀ (ps : List String) (i : Nat),
      partsMatch qq ps i = true ↔
        ∀ j < ps.length, (ps.getD j "" = "*" ∨ qq.get? (i + j) = some (ps.getD j ""))
  | [], i => by simp [partsMatch]
  | p :: ps, i => by
    rw [partsMatch, Bool.and_eq_true, Bool.or_eq_true,
      partsMatch_true_iff qq ps (i + 1)]
    simp only [beq_iff_eq]
    constructor
    · rintro ⟨h0, hrest⟩ j hj
      cases j with
      | zero => simpa using h0
      | succ j =>
        have hj2 : j < ps.length := by simpa using hj
        have := hrest j hj2
        have harith : i + (j + 1) = i + 1 + j := by omega
        simpa [harith] using this
    · intro h
      refine ⟨by simpa using h 0 (by simp), ?_⟩
      intro j hj
      have := h (j + 1) (by simpa using hj)
      have harith : i + (j + 1) = i + 1 + j := by omega
      simpa [harith] using this

/-- C2: `get_match_score` splits pattern and path on the slash and drops empty
segments; it returns no match when the pattern has more segments than the path
or a non-wildcard pattern segment differs from the path segment at its index,
and otherwise returns the score made of the number of exactly matched
segments and the number of pattern segments; the pattern consisting of a bare
slash (zero segments) matches every path with score (0, 0). -/
theorem c2_path_matcher (pattern path : String) :
    (get_match_score pattern path =
      if ((splitSegments pattern).length ≤ (splitSegments path).length ∧
          ∀ j < (splitSegments pattern).length,
            ((splitSegments pattern).getD j "" = "*" ∨
             (splitSegments path).get? j = some ((splitSegments pattern).getD j "")))
      then some { exact_parts := exactCount (splitSegments pattern),
                  total_parts := (splitSegments pattern).length }
      else none) ∧
    get_match_score ("/") path = some { exact_parts := 0, total_parts := 0 } := by
  constructor
  · simp only [get_match_score]
    by_cases hlen : (splitSegments pattern).length > (splitSegments path).length
    · rw [if_pos hlen, if_neg]
      rintro ⟨h1, -⟩
      omega
    · rw [if_neg hlen, scoreLoop_eq]
      by_cases hm : partsMatch (splitSegments path) (splitSegments pattern) 0 = true
      · rw [if_pos hm, if_pos]
        · simp
        · refine ⟨by omega, ?_⟩
          intro j hj
          have := (partsMatch_true_iff (splitSegments path) (splitSegments pattern) 0).mp
            hm j hj
          simpa using this
      · rw [if_neg hm, if_neg]
        · simp
        · rintro ⟨-, h2⟩
          refine hm ((partsMatch_true_iff (splitSegments path) (splitSegments pattern) 0).mpr ?_)
          intro j hj
          simpa using h2 j hj
  · have hsplit : splitSegments ("/") = [] := rfl
    simp [get_match_score, hsplit, scoreLoop]

/-! ## Lemmas about the router -/

/-- `scoreLt` is the lexicographic strict order on the score fields. -/
theorem scoreLt_iff (a b : MatchScore) :
    scoreLt a b = true ↔
      (a.exact_parts < b.exact_parts ∨
       (a.exact_parts = b.exact_parts ∧ a.total_parts < b.total_parts)) := by
  simp [scoreLt]

theorem scoreLt_irrefl (a : MatchScore) : scoreLt a a = false := by
  simp [scoreLt]

theorem scoreLt_asymm {a b : MatchScore} (h : scoreLt a b = true) :
    scoreLt b a = false := by
  simp [scoreLt] at h ⊢
  omega

theorem scoreLt_total_eq {a b : MatchScore} (h1 : scoreLt a b = false)
    (h2 : scoreLt b a = false) : a = b := by
  obtain ⟨a1, a2⟩ := a
  obtain ⟨b1, b2⟩ := b
  simp [scoreLt] at h1 h2
  simp only [MatchScore.mk.injEq]
  omega

theorem scoreLt_of_lt_of_not_lt {a b c : MatchScore} (h1 : scoreLt a b = true)
    (h2 : scoreLt c b = false) : scoreLt a c = true := by
  simp [scoreLt] at h1 h2 ⊢
  omega

theorem scoreLt_false_trans {a b c : MatchScore} (h1 : scoreLt a b = false)
    (h2 : scoreLt b c = false) : scoreLt a c = false := by
  simp [scoreLt] at h1 h2 ⊢
  omega

theorem maxWith_cons (b : MatchScore) (p : MatchScore × Route)
    (ms : List (MatchScore × Route)) :
    maxWith b (p :: ms) = maxWith (if scoreLt b p.1 then p.1 else b) ms := rfl

/-- The running maximum never drops below its base. -/
theorem maxWith_not_lt_base : ∀ (ms : List (MatchScore × Route)) (b : MatchScore),
    scoreLt (maxWith b ms) b = false
  | [], b => scoreLt_irrefl b
  | p :: ms, b => by
    rw [maxWith_cons]
    by_cases h : scoreLt b p.1 = true
    · rw [if_pos h]
      exact scoreLt_false_trans (maxWith_not_lt_base ms p.1) (scoreLt_asymm h)
    · rw [if_neg h]
      exact maxWith_not_lt_base ms b

/-- The running maximum is an upper bound of the scanned scores. -/
theorem maxWith_ub : ∀ (ms : List (MatchScore × Route)) (b : MatchScore),
    ∀ p ∈ ms, scoreLt (maxWith b ms) p.1 = false
  | [], _, _, hp => absurd hp (List.not_mem_nil _)
  | q :: ms, b, p, hp => by
    rw [maxWith_cons]
    rcases List.mem_cons.mp hp with rfl | hp2
    · by_cases h : scoreLt b p.1 = true
      · rw [if_pos h]
        exact maxWith_not_lt_base ms p.1
      · rw [if_neg h]
        exact scoreLt_false_trans (maxWith_not_lt_base ms b)
          (by simpa using h)
    · by_cases h : scoreLt b q.1 = true
      · rw [if_pos h]
        exact maxWith_ub ms q.1 p hp2
      · rw [if_neg h]
        exact maxWith_ub ms b p hp2

/-- The matches of a route list, head cases. -/
theorem matchesOf_cons_none (path : String) (r : Route) (rs : List Route)
    (h : get_match_score r.path path = none) :
    matchesOf path (r :: rs) = matchesOf path rs := by
  simp [matchesOf, List.filterMap_cons, h]

theorem matchesOf_cons_some (path : String) (r : Route) (rs : List Route)
    (s : MatchScore) (h : get_match_score r.path path = some s) :
    matchesOf path (r :: rs) = (s, r) :: matchesOf path rs := by
  simp [matchesOf, List.filterMap_cons, h]

/-- The first component of the scan is the running maximum of the scores. -/
theorem scanSpec_fst (path : String) :
    ∀ (rs : List Route) (b : MatchScore) (rb : Route) (c : Nat),
      (scanSpec path rs b rb c).1 = maxWith b (matchesOf path rs)
  | [], b, rb, c => by simp [scanSpec, matchesOf, maxWith]
  | r :: rs, b, rb, c => by
    cases hscore : get_match_score r.path path with
    | none =>
      rw [matchesOf_cons_none path r rs hscore]
      simp only [scanSpec, hscore]
      exact scanSpec_fst path rs b rb c
    | some s =>
      rw [matchesOf_cons_some path r rs s hscore, maxWith_cons]
      simp only [scanSpec, hscore]
      by_cases hlt : scoreLt b s = true
      · rw [if_pos hlt, if_pos hlt]
        exact scanSpec_fst path rs s r 1
      · rw [if_neg hlt, if_neg hlt]
        by_cases heq : (s == b) = true
        · rw [if_pos heq]
          exact scanSpec_fst path rs b rb (c + 1)
        · rw [if_neg heq]
          exact scanSpec_fst path rs b rb c

/-- The scanned best pair is the starting pair or one of the matches. -/
theorem scanSpec_mem (path : String) :
    ∀ (rs : List Route) (b : MatchScore) (rb : Route) (c : Nat),
      ((scanSpec path rs b rb c).1, (scanSpec path rs b rb c).2.1) ∈
        (b, rb) :: matchesOf path rs
  | [], b, rb, c => by simp [scanSpec, matchesOf]
  | r :: rs, b, rb, c => by
    cases hscore : get_match_score r.path path with
    | none =>
      rw [matchesOf_cons_none path r rs hscore]
      simp only [scanSpec, hscore]
      exact scanSpec_mem path rs b rb c
    | some s =>
      rw [matchesOf_cons_some path r rs s hscore]
      simp only [scanSpec, hscore]
      by_cases hlt : scoreLt b s = true
      · rw [if_pos hlt]
        exact List.mem_cons_of_mem _ (scanSpec_mem path rs s r 1)
      · rw [if_neg hlt]
        have step : ∀ c', ((scanSpec path rs b rb c').1, (scanSpec path rs b rb c').2.1) ∈
            (b, rb) :: (s, r) :: matchesOf path rs := by
          intro c'
          rcases List.mem_cons.mp (scanSpec_mem path rs b rb c') with h | h
          · rw [h]
            exact List.mem_cons_self _ _
          · exact List.mem_cons_of_mem _ (List.mem_cons_of_mem _ h)
        by_cases heq : (s == b) = true
        · rw [if_pos heq]
          exact step (c + 1)
        · rw [if_neg heq]
          exact step c

/-- The scanned counter counts how often the final maximum occurs among the
matches, plus the incoming counter when the maximum is the starting score. -/
theorem scanSpec_count (path : String) :
    ∀ (rs : List Route) (b : MatchScore) (rb : Route) (c : Nat),
      (scanSpec path rs b rb c).2.2 =
        (matchesOf path rs).countP (fun p => p.1 == (scanSpec path rs b rb c).1) +
          (if (scanSpec path rs b rb c).1 = b then c else 0)
  | [], b, rb, c => by simp [scanSpec, matchesOf]
  | r :: rs, b, rb, c => by
    cases hscore : get_match_score r.path path with
    | none =>
      rw [matchesOf_cons_none path r rs hscore]
      simp only [scanSpec, hscore]
      exact scanSpec_count path rs b rb c
    | some s =>
      rw [matchesOf_cons_some path r rs s hscore]
      simp only [scanSpec, hscore]
      by_cases hlt : scoreLt b s = true
      · rw [if_pos hlt]
        have hmax : (scanSpec path rs s r 1).1 = maxWith s (matchesOf path rs) :=
          scanSpec_fst path rs s r 1
        have hTs : scoreLt (scanSpec path rs s r 1).1 s = false := by
          rw [hmax]
          exact maxWith_not_lt_base _ s
        have hbT : scoreLt b (scanSpec path rs s r 1).1 = true :=
          scoreLt_of_lt_of_not_lt hlt hTs
        have hTneb : ¬((scanSpec path rs s r 1).1 = b) := by
          intro he
          rw [he] at hbT
          rw [scoreLt_irrefl] at hbT
          exact Bool.false_ne_true hbT
        rw [List.countP_cons, if_neg hTneb]
        have ih := scanSpec_count path rs s r 1
        by_cases hTs2 : (scanSpec path rs s r 1).1 = s
        · rw [if_pos hTs2] at ih
          have hb : (s == (scanSpec path rs s r 1).1) = true := by
            rw [beq_iff_eq, hTs2]
          rw [hb, ih]
          simp only [eq_self_iff_true, if_true]
        · rw [if_neg hTs2] at ih
          have hb : (s == (scanSpec path rs s r 1).1) = false := by
            rw [beq_eq_false_iff_ne]
            intro he
            exact hTs2 he.symm
          rw [hb, ih]
          simp only [Bool.false_eq_true, if_false]
      · rw [if_neg hlt]
        by_cases heq : (s == b) = true
        · rw [if_pos heq]
          have hsb : s = b := beq_iff_eq.mp heq
          subst hsb
          have ih := scanSpec_count path rs s rb (c + 1)
          rw [List.countP_cons]
          by_cases hub : (scanSpec path rs s rb (c + 1)).1 = s
          · rw [if_pos hub] at ih
            rw [if_pos hub]
            have hb : (s == (scanSpec path rs s rb (c + 1)).1) = true := by
              rw [beq_iff_eq, hub]
            rw [hb, ih]
            simp only [eq_self_iff_true, if_true]
            omega
          · rw [if_neg hub] at ih
            rw [if_neg hub]
            have hb : (s == (scanSpec path rs s rb (c + 1)).1) = false := by
              rw [beq_eq_false_iff_ne]
              intro he
              exact hub he.symm
            rw [hb, ih]
            simp only [Bool.false_eq_true, if_false]
        · rw [if_neg heq]
          have heq2 : ¬(s = b) := by simpa using heq
          have hsb : scoreLt s b = true := by
            cases hsb2 : scoreLt s b with
            | true => rfl
            | false =>
              have hbe := scoreLt_total_eq (by simpa using hlt) hsb2
              exact absurd hbe.symm heq2
          have hVb : scoreLt (scanSpec path rs b rb c).1 b = false := by
            rw [scanSpec_fst path rs b rb c]
            exact maxWith_not_lt_base _ b
          have hsV : scoreLt s (scanSpec path rs b rb c).1 = true :=
            scoreLt_of_lt_of_not_lt hsb hVb
          have hsneV : (s == (scanSpec path rs b rb c).1) = false := by
            rw [beq_eq_false_iff_ne]
            intro he
            rw [he] at hsV
            rw [scoreLt_irrefl] at hsV
            exact Bool.false_ne_true hsV
          rw [List.countP_cons, hsneV]
          have ih := scanSpec_count path rs b rb c
          rw [ih]
          simp only [Bool.false_eq_true, if_false]
          omega

/-- The source scan agrees with the specification scan: starting from a best
pair whose score has been seen `c` times, the ambiguous flag is exactly
whether the count reached two. -/
theorem routeFold_eq_scanSpec (path : String) :
    ∀ (rs : List Route) (b : MatchScore) (rb : Route) (c : Nat), 1 ≤ c →
      routeFold path rs (some (b, rb)) (decide (2 ≤ c)) =
        (some ((scanSpec path rs b rb c).1, (scanSpec path rs b rb c).2.1),
         decide (2 ≤ (scanSpec path rs b rb c).2.2))
  | [], b, rb, c, _ => by simp [routeFold, scanSpec]
  | r :: rs, b, rb, c, hc => by
    cases hscore : get_match_score r.path path with
    | none =>
      simp only [routeFold, scanSpec, hscore]
      exact routeFold_eq_scanSpec path rs b rb c hc
    | some s =>
      simp only [routeFold, scanSpec, hscore]
      by_cases hlt : scoreLt b s = true
      · rw [if_pos hlt, if_pos hlt]
        have h := routeFold_eq_scanSpec path rs s r 1 (le_refl 1)
        have hd : decide (2 ≤ 1) = false := rfl
        rw [hd] at h
        exact h
      · rw [if_neg hlt, if_neg hlt]
        by_cases heq : (s == b) = true
        · rw [if_pos heq, if_pos heq]
          have h := routeFold_eq_scanSpec path rs b rb (c + 1) (by omega)
          have hd : decide (2 ≤ c + 1) = true := by
            simp only [decide_eq_true_eq]
            omega
          rw [hd] at h
          exact h
        · rw [if_neg heq, if_neg heq]
          exact routeFold_eq_scanSpec path rs b rb c hc

/-- When no route matches, the scan from the empty state returns nothing. -/
theorem scanFromNone_eq_none_iff (path : String) :
    ∀ rs : List Route, scanFromNone path rs = none ↔ matchesOf path rs = []
  | [] => by simp [scanFromNone, matchesOf]
  | r :: rs => by
    cases hscore : get_match_score r.path path with
    | none =>
      rw [matchesOf_cons_none path r rs hscore]
      simp only [scanFromNone, hscore]
      exact scanFromNone_eq_none_iff path rs
    | some s =>
      rw [matchesOf_cons_some path r rs s hscore]
      simp [scanFromNone, hscore]

/-- `routeFold` from the empty state, no-match case. -/
theorem routeFold_none_of_no_match (path : String) :
    ∀ rs : List Route, scanFromNone path rs = none →
      routeFold path rs none false = (none, false)
  | [], _ => by simp [routeFold]
  | r :: rs, h => by
    simp only [routeFold]
    cases hscore : get_match_score r.path path with
    | none =>
      simp only [scanFromNone, hscore] at h
      exact routeFold_none_of_no_match path rs h
    | some s =>
      simp only [scanFromNone, hscore] at h
      exact absurd h (Option.some_ne_none _)

/-- `routeFold` from the empty state, matching case: the result is the final
best pair with the flag recording whether its score was seen at least twice. -/
theorem routeFold_none_of_match (path : String) :
    ∀ (rs : List Route) (b : MatchScore) (rb : Route) (c : Nat),
      scanFromNone path rs = some (b, rb, c) →
      routeFold path rs none false = (some (b, rb), decide (2 ≤ c))
  | [], b, rb, c, h => by simp [scanFromNone] at h
  | r :: rs, b, rb, c, h => by
    cases hscore : get_match_score r.path path with
    | none =>
      simp only [routeFold, hscore]
      simp only [scanFromNone, hscore] at h
      exact routeFold_none_of_match path rs b rb c h
    | some s =>
      simp only [routeFold, hscore]
      simp only [scanFromNone, hscore, Option.some.injEq] at h
      have h2 := routeFold_eq_scanSpec path rs s r 1 (le_refl 1)
      have hd : decide (2 ≤ 1) = false := rfl
      rw [hd] at h2
      rw [h2, h]

/-- The final best of a successful scan: its score is an upper bound of all
match scores, the pair is itself one of the matches, and the counter counts
the matches achieving the final score. -/
theorem scanFromNone_spec (path : String) :
    ∀ (rs : List Route) (b : MatchScore) (rb : Route) (c : Nat),
      scanFromNone path rs = some (b, rb, c) →
      (∀ p ∈ matchesOf path rs, scoreLt b p.1 = false) ∧
      (b, rb) ∈ matchesOf path rs ∧
      c = (matchesOf path rs).countP (fun p => p.1 == b)
  | [], b, rb, c, h => by simp [scanFromNone] at h
  | r :: rs, b, rb, c, h => by
    cases hscore : get_match_score r.path path with
    | none =>
      rw [matchesOf_cons_none path r rs hscore]
      simp only [scanFromNone, hscore] at h
      exact scanFromNone_spec path rs b rb c h
    | some s =>
      rw [matchesOf_cons_some path r rs s hscore]
      simp only [scanFromNone, hscore, Option.some.injEq] at h
      have hb : (scanSpec path rs s r 1).1 = b := by rw [h]
      have hrb : (scanSpec path rs s r 1).2.1 = rb := by rw [h]
      have hc : (scanSpec path rs s r 1).2.2 = c := by rw [h]
      have hmax : b = maxWith s (matchesOf path rs) := by
        rw [← hb]
        exact scanSpec_fst path rs s r 1
      refine ⟨?_, ?_, ?_⟩
      · intro p hp
        rcases List.mem_cons.mp hp with rfl | hp2
        · rw [hmax]
          exact maxWith_not_lt_base _ s
        · rw [hmax]
          exact maxWith_ub _ s p hp2
      · have := scanSpec_mem path rs s r 1
        rw [hb, hrb] at this
        exact this
      · have hcount := scanSpec_count path rs s r 1
        rw [hb, hc] at hcount
        rw [List.countP_cons]
        by_cases hbs : b = s
        · rw [if_pos hbs] at hcount
          have hsb : (s == b) = true := by rw [beq_iff_eq, hbs]
          rw [hsb]
          simp only [eq_self_iff_true, if_true]
          omega
        · rw [if_neg hbs] at hcount
          have hsb : (s == b) = false := by
            rw [beq_eq_false_iff_ne]
            intro he
            exact hbs he.symm
          rw [hsb]
          simp only [Bool.false_eq_true, if_false]
          omega

/-- Two distinct elements satisfying a predicate push its count to two. -/
theorem two_le_countP_of_two_mem {α : Type} {l : List α} {p : α → Bool} {x y : α}
    (hx : x ∈ l) (hy : y ∈ l) (hpx : p x = true) (hpy : p y = true)
    (hne : x ≠ y) : 2 ≤ l.countP p := by
  obtain ⟨s, t, rfl⟩ := List.append_of_mem hx
  rw [List.countP_append, List.countP_cons, hpx]
  rcases List.mem_append.mp hy with hys | hyxt
  · have : 0 < s.countP p := List.countP_pos_iff.mpr ⟨y, hys, hpy⟩
    simp only [eq_self_iff_true, if_true]
    omega
  · rcases List.mem_cons.mp hyxt with rfl | hyt
    · exact absurd rfl hne
    · have : 0 < t.countP p := List.countP_pos_iff.mpr ⟨y, hyt, hpy⟩
      simp only [eq_self_iff_true, if_true]
      omega

/-- `find_best_route` on a route list with at least one match: ambiguous
exactly when the final best score was achieved at least twice. -/
theorem find_best_route_of_match (path : String) (dc : DomainConfig)
    (b : MatchScore) (rb : Route) (c : Nat)
    (h : scanFromNone path dc.routes = some (b, rb, c)) :
    find_best_route path dc =
      if 2 ≤ c then .error .AmbiguousRoute else .ok (some rb.targets) := by
  unfold find_best_route
  rw [routeFold_none_of_match path dc.routes b rb c h]
  by_cases h2 : 2 ≤ c
  · have hd : decide (2 ≤ c) = true := by simp [h2]
    rw [hd, if_pos h2]
  · have hd : decide (2 ≤ c) = false := by simp [h2]
    rw [hd, if_neg h2]
    simp

/-- C3: the router returns HostNotFound when the host is not an exact key of
the domain map; otherwise it scores the domain's routes in order, surfaces
no route when none matches, returns AmbiguousRoute when the final best score
is achieved by two or more routes, and otherwise returns a clone of the
unique best-scoring route's target list. -/
theorem c3_router (host path : String) (config : AppConfig) :
    (config.domains.lookup host = none →
      find_target_urls host path config = .error .HostNotFound) ∧
    (∀ dc, config.domains.lookup host = some dc →
      (matchesOf path dc.routes = [] →
        find_target_urls host path config = .ok none) ∧
      (∀ M, ((∃ p ∈ matchesOf path dc.routes, p.1 = M) ∧
             ∀ p ∈ matchesOf path dc.routes, scoreLt M p.1 = false) →
        (2 ≤ (matchesOf path dc.routes).countP (fun p => p.1 == M) →
          find_target_urls host path config = .error .AmbiguousRoute) ∧
        (∀ R, (matchesOf path dc.routes).countP (fun p => p.1 == M) = 1 →
          (M, R) ∈ matchesOf path dc.routes →
          find_target_urls host path config = .ok (some R.targets)))) := by
  constructor
  · intro h
    simp [find_target_urls, h]
  · intro dc hdc
    constructor
    · intro hempty
      have hnone : scanFromNone path dc.routes = none :=
        (scanFromNone_eq_none_iff path dc.routes).mpr hempty
      simp only [find_target_urls, hdc]
      unfold find_best_route
      rw [routeFold_none_of_no_match path dc.routes hnone]
      simp
    · intro M hM
      obtain ⟨⟨q, hq, hqM⟩, hub⟩ := hM
      have hne : matchesOf path dc.routes ≠ [] := by
        intro h0
        rw [h0] at hq
        exact absurd hq (List.not_mem_nil q)
      obtain ⟨⟨b, rb, c⟩, hsf⟩ : ∃ x, scanFromNone path dc.routes = some x := by
        cases hx : scanFromNone path dc.routes with
        | none => exact absurd ((scanFromNone_eq_none_iff path dc.routes).mp hx) hne
        | some x => exact ⟨x, rfl⟩
      obtain ⟨hub_b, hmem_b, hcount⟩ := scanFromNone_spec path dc.routes b rb c hsf
      have hMb : M = b := by
        apply scoreLt_total_eq
        · exact hub (b, rb) hmem_b
        · have h1 := hub_b q hq
          rw [hqM] at h1
          exact h1
      subst hMb
      constructor
      · intro hcnt2
        simp only [find_target_urls, hdc]
        rw [find_best_route_of_match path dc M rb c hsf, if_pos (by omega)]
      · intro R hcnt1 hmemR
        have hRb : rb = R := by
          by_contra hne2
          have hnepair : (M, rb) ≠ (M, R) := by
            intro hpair
            exact hne2 (congrArg Prod.snd hpair)
          have h2 := two_le_countP_of_two_mem (p := fun x => x.1 == M) hmem_b hmemR
            (by simp) (by simp) hnepair
          omega
        simp only [find_target_urls, hdc]
        rw [find_best_route_of_match path dc M rb c hsf, if_neg (by omega), hRb]

/-- C3 witness: the exact route wins over the wildcard route for
`/api/users` on `a.test`. -/
theorem c3_router_witness :
    find_target_urls ("a.test") ("/api/users") cfgC3 = .ok (some ["b1"]) := by
  have h := ((c3_router ("a.test") ("/api/users") cfgC3).2 dcC3 rfl).2
    { exact_parts := 2, total_parts := 2 } (by decide)
  exact h.2 { path := "/api/users", targets := ["b1"], websocket := false }
    (by decide) (by decide)

/-- C4 as stated is false on the code: on `dcC4` the two distinct patterns
tie on the path, yet a third route matches with a strictly higher score, the
tie flag is cleared, and the router returns the third route's targets rather
than AmbiguousRoute. -/
theorem c4_counterexample :
    get_match_score ("/a/*") ("/a/b") = some { exact_parts := 1, total_parts := 2 } ∧
    get_match_score ("/*/b") ("/a/b") = some { exact_parts := 1, total_parts := 2 } ∧
    ("/a/*" : String) ≠ "/*/b" ∧
    find_best_route ("/a/b") dcC4 = .ok (some ["t3"]) ∧
    find_best_route ("/a/b") dcC4 ≠ .error .AmbiguousRoute := by
  refine ⟨rfl, rfl, by decide, rfl, ?_⟩
  intro h
  have h2 : (Except.ok (some ["t3"]) : Except VaneError (Option (List String))) =
      .error .AmbiguousRoute :=
    (rfl : find_best_route ("/a/b") dcC4 = .ok (some ["t3"])).symm.trans h
  exact Except.noConfusion h2

/-- C4 (amended): if two routes with distinct patterns match a path with
identical scores and that score is the final best (no route scores strictly
higher), the router returns AmbiguousRoute; a tie strictly below the final
best does not trigger it. -/
theorem c4_tie_at_best (path : String) (dc : DomainConfig)
    (p q : MatchScore × Route)
    (hp : p ∈ matchesOf path dc.routes) (hq : q ∈ matchesOf path dc.routes)
    (hne : p.2.path ≠ q.2.path) (heq : p.1 = q.1)
    (hmax : ∀ x ∈ matchesOf path dc.routes, scoreLt p.1 x.1 = false) :
    find_best_route path dc = .error .AmbiguousRoute := by
  have hne0 : matchesOf path dc.routes ≠ [] := by
    intro h0
    rw [h0] at hp
    exact absurd hp (List.not_mem_nil p)
  obtain ⟨⟨b, rb, c⟩, hsf⟩ : ∃ x, scanFromNone path dc.routes = some x := by
    cases hx : scanFromNone path dc.routes with
    | none => exact absurd ((scanFromNone_eq_none_iff path dc.routes).mp hx) hne0
    | some x => exact ⟨x, rfl⟩
  obtain ⟨hub_b, hmem_b, hcount⟩ := scanFromNone_spec path dc.routes b rb c hsf
  have hpb : p.1 = b := scoreLt_total_eq (hmax (b, rb) hmem_b) (hub_b p hp)
  have h2 : 2 ≤ (matchesOf path dc.routes).countP (fun x => x.1 == b) := by
    refine two_le_countP_of_two_mem hp hq ?_ ?_ ?_
    · simp [hpb]
    · rw [beq_iff_eq, ← heq, hpb]
    · intro hpq
      exact hne (congrArg (fun z => z.2.path) hpq)
  rw [find_best_route_of_match path dc b rb c hsf, if_pos (by omega)]

/-- C4 (amended) witness: two distinct tied patterns at the best score give
AmbiguousRoute. -/
theorem c4_tie_witness : find_best_route ("/a/b") dcC4W = .error .AmbiguousRoute :=
  c4_tie_at_best ("/a/b") dcC4W
    ({ exact_parts := 1, total_parts := 2 },
      { path := "/a/*", targets := ["t1"], websocket := false })
    ({ exact_parts := 1, total_parts := 2 },
      { path := "/*/b", targets := ["t2"], websocket := false })
    (by decide) (by decide) (by decide) rfl (by decide)

/-! ## Lemmas about the proxy failover loop -/

/-- When every earlier target fails and target `t` parses and answers with a
non-server-error status, the loop returns that response as is, and the
attempts actually sent are exactly the parsed earlier attempts followed by the
attempt at `t`: no later target is contacted. -/
theorem proxyLoop_first_success (parseUri : String → Bool) (send : OutboundReq → SendResult)
    (headers : List (String × String)) (clientIp : Option String) (pq body : String)
    (t : String) (post : List String) (r : Response)
    (hparse : parseUri (buildTargetUrl t pq) = true)
    (hsend : send (attemptReq headers clientIp pq body t) = .response r)
    (hok : is_server_error r.status = false) :
    ∀ (pre : List String) (le : Option String),
      (∀ u ∈ pre, attemptFails parseUri send headers clientIp pq body u) →
      proxyLoop parseUri send headers clientIp pq body (pre ++ t :: post) le =
        (.ok r,
         pre.filterMap (fun u =>
           if parseUri (buildTargetUrl u pq) then
             some (attemptReq headers clientIp pq body u) else none) ++
           [attemptReq headers clientIp pq body t])
  | [], le, _ => by
    simp only [List.nil_append, proxyLoop]
    simp [hparse, hsend, hok]
  | u :: pre, le, hfails => by
    have hu := hfails u (List.mem_cons_self u pre)
    have hrest : ∀ v ∈ pre, attemptFails parseUri send headers clientIp pq body v :=
      fun v hv => hfails v (List.mem_cons_of_mem u hv)
    simp only [List.cons_append, proxyLoop]
    by_cases hup : parseUri (buildTargetUrl u pq) = true
    · rcases hu with hpf | ⟨e, hte⟩ | ⟨r2, hre, hse⟩
      · rw [hup] at hpf
        exact absurd hpf (by simp)
      · have ih := proxyLoop_first_success parseUri send headers clientIp pq body t post r
          hparse hsend hok pre (some e) hrest
        simp [hup, hte, ih, List.filterMap_cons]
      · have ih := proxyLoop_first_success parseUri send headers clientIp pq body t post r
          hparse hsend hok pre
          (some ("Target " ++ buildTargetUrl u pq ++ " failed with status " ++
            toString r2.status)) hrest
        simp [hup, hre, hse, ih, List.filterMap_cons]
    · have hup2 : parseUri (buildTargetUrl u pq) = false := by
        simpa using hup
      have ih := proxyLoop_first_success parseUri send headers clientIp pq body t post r
        hparse hsend hok pre
        (some ("Invalid constructed target URL " ++ buildTargetUrl u pq)) hrest
      simp [hup2, ih, List.filterMap_cons]

/-- When every target fails, the loop ends in BadGateway carrying the cause
recorded for the last target. -/
theorem proxyLoop_all_fail (parseUri : String → Bool) (send : OutboundReq → SendResult)
    (headers : List (String × String)) (clientIp : Option String) (pq body : String) :
    ∀ (targets : List String) (h : targets ≠ []) (le : Option String),
      (∀ u ∈ targets, attemptFails parseUri send headers clientIp pq body u) →
      (proxyLoop parseUri send headers clientIp pq body targets le).1 =
        .error (.BadGateway
          (attemptCause parseUri send headers clientIp pq body (targets.getLast h)))
  | [], h, _, _ => absurd rfl h
  | t1 :: rest, h, le, hfails => by
    have ht := hfails t1 (List.mem_cons_self t1 rest)
    have hrest : ∀ v ∈ rest, attemptFails parseUri send headers clientIp pq body v :=
      fun v hv => hfails v (List.mem_cons_of_mem t1 hv)
    simp only [proxyLoop]
    cases rest with
    | nil =>
      rcases ht with hpf | ⟨e, hte⟩ | ⟨r2, hre, hse⟩
      · simp [hpf, proxyLoop, attemptCause, List.getLast_singleton]
      · by_cases hp1 : parseUri (buildTargetUrl t1 pq) = true
        · simp [hp1, hte, proxyLoop, attemptCause, List.getLast_singleton]
        · have hp2 : parseUri (buildTargetUrl t1 pq) = false := by simpa using hp1
          simp [hp2, proxyLoop, attemptCause, List.getLast_singleton]
      · by_cases hp1 : parseUri (buildTargetUrl t1 pq) = true
        · simp [hp1, hre, hse, proxyLoop, attemptCause, List.getLast_singleton]
        · have hp2 : parseUri (buildTargetUrl t1 pq) = false := by simpa using hp1
          simp [hp2, proxyLoop, attemptCause, List.getLast_singleton]
    | cons t2 rest2 =>
      have hlast : (t1 :: t2 :: rest2).getLast h = (t2 :: rest2).getLast (by simp) :=
        List.getLast_cons (by simp)
      rw [hlast]
      rcases ht with hpf | ⟨e, hte⟩ | ⟨r2, hre, hse⟩
      · have ih := proxyLoop_all_fail parseUri send headers clientIp pq body
          (t2 :: rest2) (by simp)
          (some ("Invalid constructed target URL " ++ buildTargetUrl t1 pq)) hrest
        simp [hpf, ih]
      · by_cases hp1 : parseUri (buildTargetUrl t1 pq) = true
        · have ih := proxyLoop_all_fail parseUri send headers clientIp pq body
            (t2 :: rest2) (by simp) (some e) hrest
          simp [hp1, hte, ih]
        · have hp2 : parseUri (buildTargetUrl t1 pq) = false := by simpa using hp1
          have ih2 := proxyLoop_all_fail parseUri send headers clientIp pq body
            (t2 :: rest2) (by simp)
            (some ("Invalid constructed target URL " ++ buildTargetUrl t1 pq)) hrest
          simp [hp2, ih2]
      · by_cases hp1 : parseUri (buildTargetUrl t1 pq) = true
        · have ih := proxyLoop_all_fail parseUri send headers clientIp pq body
            (t2 :: rest2) (by simp)
            (some ("Target " ++ buildTargetUrl t1 pq ++ " failed with status " ++
              toString r2.status)) hrest
          simp [hp1, hre, hse, ih]
        · have hp2 : parseUri (buildTargetUrl t1 pq) = false := by simpa using hp1
          have ih2 := proxyLoop_all_fail parseUri send headers clientIp pq body
            (t2 :: rest2) (by simp)
            (some ("Invalid constructed target URL " ++ buildTargetUrl t1 pq)) hrest
          simp [hp2, ih2]

/-- C1 as stated is false on the code: the failover loop treats as failures
only the statuses that `http::StatusCode::is_server_error` accepts, namely
500..=599.  A backend answering 600 — a status at least 500 — is returned
verbatim as a success instead of triggering failover and BadGateway. -/
theorem c1_counterexample :
    (proxyLoop (fun _ => true)
        (fun _ => .response { status := 600, headers := [], body := "body-600" })
        [] none ("/x") ("") ["http://b1"] none).1 =
      .ok { status := 600, headers := [], body := "body-600" } ∧
    500 ≤ 600 ∧ ¬(600 < 500) := ⟨rfl, by omega, by omega⟩

/-- C1 (amended): the forwarder tries targets in order, treating transport
errors and responses with status in 500..=599 (and unparsable constructed
URLs, which are skipped without being contacted) as failures.  It returns the
first response whose status is outside 500..=599 verbatim, having contacted
exactly the parseable earlier targets and that one — no later target; and if
every target fails it returns BadGateway carrying the cause recorded for the
last target. -/
theorem c1_failover (parseUri : String → Bool) (send : OutboundReq → SendResult)
    (headers : List (String × String)) (clientIp : Option String) (pq body : String) :
    (∀ (pre : List String) (t : String) (post : List String) (r : Response)
        (le : Option String),
      (∀ u ∈ pre, attemptFails parseUri send headers clientIp pq body u) →
      parseUri (buildTargetUrl t pq) = true →
      send (attemptReq headers clientIp pq body t) = .response r →
      is_server_error r.status = false →
      proxyLoop parseUri send headers clientIp pq body (pre ++ t :: post) le =
        (.ok r,
         pre.filterMap (fun u =>
           if parseUri (buildTargetUrl u pq) then
             some (attemptReq headers clientIp pq body u) else none) ++
           [attemptReq headers clientIp pq body t])) ∧
    (∀ (targets : List String) (h : targets ≠ []) (le : Option String),
      (∀ u ∈ targets, attemptFails parseUri send headers clientIp pq body u) →
      (proxyLoop parseUri send headers clientIp pq body targets le).1 =
        .error (.BadGateway
          (attemptCause parseUri send headers clientIp pq body (targets.getLast h)))) :=
  ⟨fun pre t post r le hf hp hs hok =>
    proxyLoop_first_success parseUri send headers clientIp pq body t post r hp hs hok pre le hf,
   fun targets h le hf =>
    proxyLoop_all_fail parseUri send headers clientIp pq body targets h le hf⟩

/-- C1 (amended) witness: with targets a, b, c where a answers 500 and b
answers 200, the loop returns b's response and contacts exactly a and b; and
with the single all-failing target a it returns BadGateway with a's cause. -/
theorem c1_failover_witness :
    proxyLoop (fun _ => true) sendC1 [("x-forwarded-for", "1.2.3.4")] (some ("9.9.9.9"))
        ("/x") ("req-body") (["http://a"] ++ "http://b" :: ["http://c"]) none =
      (.ok { status := 200, headers := [], body := "b-body" },
       [attemptReq [("x-forwarded-for", "1.2.3.4")] (some ("9.9.9.9")) ("/x") ("req-body")
          ("http://a"),
        attemptReq [("x-forwarded-for", "1.2.3.4")] (some ("9.9.9.9")) ("/x") ("req-body")
          ("http://b")]) ∧
    (proxyLoop (fun _ => true) sendC1 [("x-forwarded-for", "1.2.3.4")] (some ("9.9.9.9"))
        ("/x") ("req-body") ["http://a"] none).1 =
      .error (.BadGateway ("Target http://a/x failed with status 500")) := by
  have hfa : ∀ u ∈ ["http://a"],
      attemptFails (fun _ => true) sendC1 [("x-forwarded-for", "1.2.3.4")]
        (some ("9.9.9.9")) ("/x") ("req-body") u := by
    intro u hu
    rw [List.mem_singleton.mp hu]
    exact Or.inr (Or.inr ⟨{ status := 500, headers := [], body := "a-body" }, rfl, rfl⟩)
  constructor
  · have h := (c1_failover (fun _ => true) sendC1 [("x-forwarded-for", "1.2.3.4")]
      (some ("9.9.9.9")) ("/x") ("req-body")).1 ["http://a"] ("http://b") ["http://c"]
      { status := 200, headers := [], body := "b-body" } none hfa rfl rfl rfl
    exact h
  · have h := (c1_failover (fun _ => true) sendC1 [("x-forwarded-for", "1.2.3.4")]
      (some ("9.9.9.9")) ("/x") ("req-body")).2 ["http://a"] (by simp) none hfa
    exact h

/-! ## Rate-limit middleware theorems -/

/-- C6: when an override limiter pattern matches the request's host-plus-path
and its per-client-IP check passes, the request is passed through at once:
the route limiters and the default limiter are not consulted and their bucket
states are untouched — only the shield bucket and the matched override bucket
change, and the consultation trace records exactly the shield and that
override. -/
theorem c6_override_bypass (sem : LimiterSemantics) (config : AppConfig)
    (route_keys override_keys : List String) (next : Handler) (req : Request)
    (ps : PipeState) (dc : DomainConfig) (pattern : String) (s' o' : Nat)
    (hdc : config.domains.lookup req.host = some dc)
    (hshield : sem.shieldCheck (ps.rl.shield req.connectInfo) = (true, s'))
    (hfbm : find_best_match override_keys (req.host ++ req.path) = some pattern)
    (hover : sem.overrideCheck pattern (ps.rl.overrideSt pattern req.connectInfo) =
      (true, o')) :
    rate_limit_handler sem config route_keys override_keys next req ps =
      next { req with extAddr := some req.connectInfo }
        { rl := { ps.rl with
            shield := Function.update ps.rl.shield req.connectInfo s',
            overrideSt := Function.update ps.rl.overrideSt pattern
              (Function.update (ps.rl.overrideSt pattern) req.connectInfo o') },
          consulted := ps.consulted ++ [.shield, .override pattern] } := by
  simp [rate_limit_handler, hdc, hshield, hfbm, hover]

/-- C6 witness: a concrete run in which the override matches and passes. -/
theorem c6_override_bypass_witness :
    rate_limit_handler semW cfgC6 [] ["a.test/api"] nextOk reqC6 psInit =
      nextOk { reqC6 with extAddr := some ("1.2.3.4") }
        { rl := { psInit.rl with
            shield := Function.update psInit.rl.shield ("1.2.3.4") 1,
            overrideSt := Function.update psInit.rl.overrideSt ("a.test/api")
              (Function.update (psInit.rl.overrideSt ("a.test/api")) ("1.2.3.4") 1) },
          consulted := psInit.consulted ++ [.shield, .override ("a.test/api")] } :=
  c6_override_bypass semW cfgC6 [] ["a.test/api"] nextOk reqC6 psInit dcPlain
    ("a.test/api") 1 1 rfl rfl rfl rfl

/-- C9 as stated is false in its final clause: the request does not proceed
unchanged — the middleware inserts the client socket address into the request
extensions before handing it to the inner layers, as the probe observes. -/
theorem c9_counterexample :
    reqC9.extAddr = none ∧
    (rate_limit_handler semW cfgEmpty [] [] nextProbe reqC9 psInit).1.body =
      "addr:1.2.3.4" ∧
    (nextProbe reqC9 psInit).1.body = "addr:none" := ⟨rfl, rfl, rfl⟩

/-- C9 (amended): for a host that is not a key of the domain map, only the
shield is consulted — no override, route or default limiter — and when the
shield passes the request proceeds to the inner layers unchanged except that
the client socket address is inserted into its extensions. -/
theorem c9_unconfigured_host (sem : LimiterSemantics) (config : AppConfig)
    (route_keys override_keys : List String) (next : Handler) (req : Request)
    (ps : PipeState) (s' : Nat)
    (hdc : config.domains.lookup req.host = none)
    (hshield : sem.shieldCheck (ps.rl.shield req.connectInfo) = (true, s')) :
    rate_limit_handler sem config route_keys override_keys next req ps =
      next { req with extAddr := some req.connectInfo }
        { rl := { ps.rl with shield := Function.update ps.rl.shield req.connectInfo s' },
          consulted := ps.consulted ++ [.shield] } := by
  simp [rate_limit_handler, hdc, hshield]

/-- C9 (amended) witness. -/
theorem c9_unconfigured_host_witness :
    rate_limit_handler semW cfgEmpty [] [] nextOk reqC9 psInit =
      nextOk { reqC9 with extAddr := some ("1.2.3.4") }
        { rl := { psInit.rl with
            shield := Function.update psInit.rl.shield ("1.2.3.4") 1 },
          consulted := psInit.consulted ++ [.shield] } :=
  c9_unconfigured_host semW cfgEmpty [] [] nextOk reqC9 psInit 1 rfl rfl

/-- C7 as stated is false on the code: the default check is performed against
the single process-wide `configurable_limiter` — built by
`build_global_limiter` from the first domain in iteration order carrying a
usable default rule — even when the request's own domain configured no
default rule.  Here host b.test has no default rule, yet the default limiter
(whose quota came from a.test) is consulted and its failure yields 429. -/
theorem c7_counterexample :
    (cfgC7.domains.lookup ("b.test") = some dcC7B ∧ dcC7B.rate_limit.default = none) ∧
    ConsultedLimiter.defaultLimiter ∈
      (rate_limit_handler semC7 cfgC7 [] [] nextOk reqC7 psInit).2.consulted ∧
    (rate_limit_handler semC7 cfgC7 [] [] nextOk reqC7 psInit).1 =
      serve_status_page 429 ("Too Many Requests") ∧
    build_global_limiter cfgC7.domains = .ok { period_secs := 1, burst := 1 } := by
  exact ⟨⟨rfl, rfl⟩, by decide, rfl, rfl⟩

/-- C7 (amended): for every request to a configured host that passes the
shield and matches no override limiter, after the route limiter step (no
match, or a matching route limiter whose check passes) the middleware always
also checks the single process-wide default limiter, regardless of whether
the request's own domain configured a default rule; its failure yields 429
with a status page, and on success the request proceeds. -/
theorem c7_default_always_checked (sem : LimiterSemantics) (config : AppConfig)
    (route_keys override_keys : List String) (next : Handler) (req : Request)
    (ps : PipeState) (dc : DomainConfig) (s' : Nat)
    (hdc : config.domains.lookup req.host = some dc)
    (hshield : sem.shieldCheck (ps.rl.shield req.connectInfo) = (true, s'))
    (hov : find_best_match override_keys (req.host ++ req.path) = none) :
    (∀ d', find_best_match route_keys (req.host ++ req.path) = none →
      sem.defaultCheck (ps.rl.defaultSt req.connectInfo) = (false, d') →
      rate_limit_handler sem config route_keys override_keys next req ps =
        (serve_status_page 429 ("Too Many Requests"),
         { rl := { ps.rl with
             shield := Function.update ps.rl.shield req.connectInfo s',
             defaultSt := Function.update ps.rl.defaultSt req.connectInfo d' },
           consulted := ps.consulted ++ [.shield, .defaultLimiter] })) ∧
    (∀ d', find_best_match route_keys (req.host ++ req.path) = none →
      sem.defaultCheck (ps.rl.defaultSt req.connectInfo) = (true, d') →
      rate_limit_handler sem config route_keys override_keys next req ps =
        next { req with extAddr := some req.connectInfo }
          { rl := { ps.rl with
              shield := Function.update ps.rl.shield req.connectInfo s',
              defaultSt := Function.update ps.rl.defaultSt req.connectInfo d' },
            consulted := ps.consulted ++ [.shield, .defaultLimiter] }) ∧
    (∀ pattern r' d', find_best_match route_keys (req.host ++ req.path) = some pattern →
      sem.routeCheck pattern (ps.rl.routeSt pattern req.connectInfo) = (true, r') →
      sem.defaultCheck (ps.rl.defaultSt req.connectInfo) = (false, d') →
      rate_limit_handler sem config route_keys override_keys next req ps =
        (serve_status_page 429 ("Too Many Requests"),
         { rl := { ps.rl with
             shield := Function.update ps.rl.shield req.connectInfo s',
             routeSt := Function.update ps.rl.routeSt pattern
               (Function.update (ps.rl.routeSt pattern) req.connectInfo r'),
             defaultSt := Function.update ps.rl.defaultSt req.connectInfo d' },
           consulted := ps.consulted ++ [.shield, .route pattern, .defaultLimiter] })) ∧
    (∀ pattern r' d', find_best_match route_keys (req.host ++ req.path) = some pattern →
      sem.routeCheck pattern (ps.rl.routeSt pattern req.connectInfo) = (true, r') →
      sem.defaultCheck (ps.rl.defaultSt req.connectInfo) = (true, d') →
      rate_limit_handler sem config route_keys override_keys next req ps =
        next { req with extAddr := some req.connectInfo }
          { rl := { ps.rl with
              shield := Function.update ps.rl.shield req.connectInfo s',
              routeSt := Function.update ps.rl.routeSt pattern
                (Function.update (ps.rl.routeSt pattern) req.connectInfo r'),
              defaultSt := Function.update ps.rl.defaultSt req.connectInfo d' },
            consulted := ps.consulted ++ [.shield, .route pattern, .defaultLimiter] }) := by
  refine ⟨?_, ?_, ?_, ?_⟩
  · intro d' hrt hdf
    simp [rate_limit_handler, rate_limit_default_step, hdc, hshield, hov, hrt, hdf]
  · intro d' hrt hdf
    simp [rate_limit_handler, rate_limit_default_step, hdc, hshield, hov, hrt, hdf]
  · intro pattern r' d' hrt hroute hdf
    simp [rate_limit_handler, rate_limit_default_step, hdc, hshield, hov, hrt, hroute, hdf]
  · intro pattern r' d' hrt hroute hdf
    simp [rate_limit_handler, rate_limit_default_step, hdc, hshield, hov, hrt, hroute, hdf]

/-- C7 (amended) witness: the default check fires and fails for a request to
the domain that configured no default rule. -/
theorem c7_default_always_checked_witness :
    rate_limit_handler semC7 cfgC7 [] [] nextOk reqC7 psInit =
      (serve_status_page 429 ("Too Many Requests"),
       { rl := { psInit.rl with
           shield := Function.update psInit.rl.shield ("1.2.3.4") 1,
           defaultSt := Function.update psInit.rl.defaultSt ("1.2.3.4") 0 },
         consulted := psInit.consulted ++ [.shield, .defaultLimiter] }) :=
  (c7_default_always_checked semC7 cfgC7 [] [] nextOk reqC7 psInit dcC7B 1
    rfl rfl rfl).1 0 rfl rfl

/-! ## CORS, method filter and pipeline theorems -/

/-- C8: for an OPTIONS request carrying `Access-Control-Request-Method`, on a
domain with CORS configured and an Origin header present, the CORS layer
answers terminally with status 200 for every inner service: when the origin
is allowed (exact key or wildcard) and the requested method is in the
configured methods value (or that value is the wildcard or empty, up to
trimming), the response carries Access-Control-Allow-Origin set to the
request origin, Access-Control-Allow-Methods, Access-Control-Allow-Headers
set to the wildcard, and the specified Vary header; otherwise the 200
response carries no headers at all. -/
theorem c8_cors_preflight (config : AppConfig) (next : Handler) (req : Request)
    (ps : PipeState) (dc : DomainConfig) (cc : CorsConfig) (origin acrm : String)
    (hdc : config.domains.lookup req.host = some dc)
    (hcors : dc.cors = some cc)
    (horigin : req.headers.lookup ("origin") = some origin)
    (hmethod : req.method = "OPTIONS")
    (hacrm : req.headers.lookup ("access-control-request-method") = some acrm) :
    (∀ ms, corsLookup cc origin = some ms → corsMethodAllowed ms acrm = true →
      cors_handler config next req ps =
        ({ status := 200,
           headers := [("access-control-allow-origin", origin),
                       ("access-control-allow-headers", "*"),
                       ("access-control-allow-methods", if ms == "" then "*" else ms),
                       ("vary",
                         "Origin, Access-Control-Request-Method, Access-Control-Request-Headers")],
           body := "" }, ps)) ∧
    (corsLookup cc origin = none →
      cors_handler config next req ps = ({ status := 200, headers := [], body := "" }, ps)) ∧
    (∀ ms, corsLookup cc origin = some ms → corsMethodAllowed ms acrm = false →
      cors_handler config next req ps =
        ({ status := 200, headers := [], body := "" }, ps)) := by
  refine ⟨?_, ?_, ?_⟩
  · intro ms hams hallow
    simp [cors_handler, hdc, hcors, horigin, hmethod, hacrm, hams, hallow]
  · intro hams
    simp [cors_handler, hdc, hcors, horigin, hmethod, hacrm, hams]
  · intro ms hams hallow
    simp [cors_handler, hdc, hcors, horigin, hmethod, hacrm, hams, hallow]

/-- C8 witness: the allowed preflight on the configured origin. -/
theorem c8_cors_preflight_witness :
    cors_handler cfgC8 nextOk reqC8 psInit =
      ({ status := 200,
         headers := [("access-control-allow-origin", "https://app.example"),
                     ("access-control-allow-headers", "*"),
                     ("access-control-allow-methods", "GET"),
                     ("vary",
                       "Origin, Access-Control-Request-Method, Access-Control-Request-Headers")],
         body := "" }, psInit) :=
  (c8_cors_preflight cfgC8 nextOk reqC8 psInit dcC8 ccC8 ("https://app.example") ("GET")
    rfl rfl rfl rfl rfl).1 ("GET") rfl rfl

/-- C10: the method filter uppercases and comma-splits the domain's trimmed
allow value and silently drops every token that does not parse as an HTTP
method; when the value is not the wildcard and no token parses, the allowed
set is empty and every request method is rejected with 405 and a status
page. -/
theorem c10_method_filter (config : AppConfig) (next : Handler) (req : Request)
    (ps : PipeState) (dc : DomainConfig) (mc : MethodsConfig)
    (hdc : config.domains.lookup req.host = some dc)
    (hmc : dc.methods = some mc)
    (hstar : trimS mc.allow ≠ "*")
    (hall : ∀ tok ∈ splitChar ',' (trimS mc.allow),
      methodFromStr (toUpperS (trimS tok)) = none) :
    method_filter_handler config next req ps =
      (serve_status_page 405 ("Method Not Allowed"), ps) := by
  have hempty : (splitChar ',' (trimS mc.allow)).filterMap
      (fun s => methodFromStr (toUpperS (trimS s))) = [] :=
    List.filterMap_eq_nil_iff.mpr hall
  simp [method_filter_handler, hdc, hmc, hstar, hempty]

/-- C10 witness: the allow value made of a bare comma has no valid token, so
even GET is rejected. -/
theorem c10_method_filter_witness :
    method_filter_handler cfgC10 nextOk reqC10 psInit =
      (serve_status_page 405 ("Method Not Allowed"), psInit) :=
  c10_method_filter cfgC10 nextOk reqC10 psInit dcC10 { allow := "," }
    rfl rfl (by decide) (by decide)

/-- C5: on the plain-HTTP listener the axum layer stack runs http-mode, then
rate-limit, then CORS, then method-filter (the reverse of the documented
order, because the last `Router::layer` call is the outermost layer).  On a
preflight that both the method filter and CORS would reject, the client
observes CORS's terminal empty 200 — never the method filter's 405 — and the
shield and default limiters are consulted before CORS answers. -/
theorem c5_pipeline_eval :
    (http_pipeline semW cfgC5 [] [] (fun _ => true) sendC5 reqC5 psInit).1 =
      { status := 200, headers := [], body := "" } ∧
    (http_pipeline semW cfgC5 [] [] (fun _ => true) sendC5 reqC5 psInit).2.consulted =
      [.shield, .defaultLimiter] ∧
    method_filter_handler cfgC5 nextOk reqC5 psInit =
      (serve_status_page 405 ("Method Not Allowed"), psInit) ∧
    serve_status_page 405 ("Method Not Allowed") =
      { status := 405, headers := [], body := "Method Not Allowed" } :=
  ⟨rfl, rfl, rfl, rfl⟩

end Vane
